import Mathlib

/-!
Shallow embedding of `src/oauth-callback.js`: a single HTTP handler that
completes an OAuth authorization-code callback.  The handler checks the
request method, verifies an HMAC signature over the canonicalized query
string, exchanges the authorization code at an upstream token endpoint,
and renders either a success HTML page or an error response.

The embedding models:
  - the query as an association list of string pairs (JS object keys are
    unique and in insertion order; `Object.keys(...).sort()` sorts them
    lexicographically);
  - `Buffer.from(s, 'hex')` by `hexDecode` (Node decodes hex pairs left to
    right and stops at the first invalid digit or lone trailing digit);
  - `crypto.timingSafeEqual` by a length check that raises a `RangeError`
    when the byte lengths differ, and byte-list equality otherwise;
  - `crypto.createHmac('sha256', key).update(m).digest('hex')` abstractly
    as a function parameter `hmacHex : String → String → String` (the
    claims under study depend only on the digest being a hex string that
    decodes to the 32-byte SHA-256 length, which is stated as a hypothesis
    where needed);
  - `fetch` and its response as an `Except String Upstream` argument: an
    `Except.error` is a rejected promise (network fault) carrying the
    exception message, an `Except.ok` is an HTTP response with its `ok`
    flag, `statusText` and parsed JSON body fields;
  - JS exceptions inside the `try` block as `Except`, caught by the
    surrounding handler which renders the 500 error page;
  - JS `undefined` for an absent query parameter as `Option.none`, with
    `jsStr` rendering it as the string "undefined" the way a JS template
    literal does.
-/

/-- App credentials, read from the execution environment
(`SHOPIFY_CLIENT_ID` / `SHOPIFY_CLIENT_SECRET`). -/
structure Config where
  clientId : String
  clientSecret : String
deriving DecidableEq, Repr

/-- Inbound HTTP request: method plus query parameters.  The query is an
association list; JS object keys are unique. -/
structure Req where
  method : String
  query : List (String × String)
deriving DecidableEq, Repr

/-- Upstream token-endpoint HTTP response, as the handler consumes it:
the `ok` flag and `statusText` of the fetch response, and the
`access_token` / `scope` fields of its parsed JSON body. -/
structure Upstream where
  ok : Bool
  statusText : String
  access_token : String
  scope : String
deriving DecidableEq, Repr

/-- Outbound HTTP response produced by the handler. -/
structure Response where
  status : Nat
  contentType : String
  body : String
deriving DecidableEq, Repr

/-- Full observable outcome of one invocation: the HTTP response, whether
the outbound token-exchange POST was issued, and the success log line if
one was printed. -/
structure Outcome where
  resp : Response
  fetched : Bool
  successLog : Option String
deriving DecidableEq, Repr

/-- Renders a JS `undefined`-or-string the way a template literal does:
an absent value interpolates as the text "undefined". -/
def jsStr : Option String → String
  | some s => s
  | none => "undefined"

/-- Value of a single hex digit, if the character is one. -/
def hexVal (c : Char) : Option Nat :=
  if '0' ≤ c ∧ c ≤ '9' then some (c.toNat - '0'.toNat)
  else if 'a' ≤ c ∧ c ≤ 'f' then some (c.toNat - 'a'.toNat + 10)
  else if 'A' ≤ c ∧ c ≤ 'F' then some (c.toNat - 'A'.toNat + 10)
  else none

/-- Node `Buffer.from(s, 'hex')`: decode hex-digit pairs left to right,
stopping at the first invalid digit or at a lone trailing digit. -/
def hexDecode : List Char → List Nat
  | c1 :: c2 :: rest =>
    match hexVal c1, hexVal c2 with
    | some h, some l => (16 * h + l) :: hexDecode rest
    | _, _ => []
  | _ => []

/-- Lexicographic comparison of character lists, the order JS string
comparison uses: compare code units left to right, a shorter leading
block sorts first. -/
def charsLe : List Char → List Char → Bool
  | [], _ => true
  | _ :: _, [] => false
  | a :: as, b :: bs =>
    if a < b then true
    else if b < a then false
    else charsLe as bs

/-- Lexicographic comparison of strings (computable form of `String` `≤`). -/
def strLe (a b : String) : Bool :=
  charsLe a.data b.data

/-- Insertion step of the lexicographic sort used to model
`Array.prototype.sort()` on the query keys. -/
def lexInsert (x : String) : List String → List String
  | [] => [x]
  | y :: ys => if strLe x y then x :: y :: ys else y :: lexInsert x ys

/-- Lexicographic (stable insertion) sort of the query keys, modelling
JS `Object.keys(q).sort()`. -/
def lexSort : List String → List String
  | [] => []
  | x :: xs => lexInsert x (lexSort xs)

/-- Query keys that enter the canonical message: every key except
`signature` and `hmac`, sorted lexicographically.  Mirrors
`Object.keys(req.query).filter(key => key !== 'signature' && key !== 'hmac').sort()`. -/
def sortedKeys (query : List (String × String)) : List String :=
  lexSort ((query.map Prod.fst).filter (fun key => key != "signature" && key != "hmac"))

/-- Canonical HMAC input message: the sorted non-signature keys rendered
as `key=value` and joined with `&`.  Mirrors
`.map(key => `key=value`).join('&')` in the source. -/
def messageOf (query : List (String × String)) : String :=
  String.intercalate "&"
    ((sortedKeys query).map (fun key => key ++ "=" ++ jsStr (query.lookup key)))

/-- Computed digest `crypto.createHmac('sha256', CLIENT_SECRET).update(message).digest('hex')`,
with the HMAC-SHA256 hex function passed in abstractly. -/
def calculatedHmacOf (hmacHex : String → String → String) (cfg : Config) (req : Req) : String :=
  hmacHex cfg.clientSecret (messageOf req.query)

/-- Message of the `TypeError` Node raises for `Buffer.from(undefined, 'hex')`. -/
def bufferUndefinedMsg : String :=
  "The first argument must be of type string or an instance of Buffer, ArrayBuffer, or Array or an Array-like Object. Received undefined"

/-- Message of the `RangeError` Node raises when `crypto.timingSafeEqual`
receives buffers of different byte lengths. -/
def timingSafeLenMsg : String :=
  "Input buffers must have the same byte length"

/-- Body `res.json({ error: msg })` sends: the JSON serialization of the
error object. -/
def jsonErrorBody (msg : String) : String :=
  "\x7b\"error\":\"" ++ msg ++ "\"\x7d"

/-- Success page up to the first `${shop}` interpolation point. -/
def successHead : String :=
"
            <!DOCTYPE html>
            <html>
            <head>
                <title>Installation Complete - "

/-- Success page between the `${shop}` in the title and the `${shop}` in
the store info block (styles and the success banner). -/
def successMid1 : String :=
"</title>
                <meta charset=\"UTF-8\">
                <style>
                    body \x7b
                        font-family: -apple-system, BlinkMacSystemFont, \x27Segoe UI\x27, Roboto, sans-serif;
                        padding: 40px 20px;
                        max-width: 600px;
                        margin: 0 auto;
                        background: #f8f9fa;
                    \x7d
                    .container \x7b
                        background: white;
                        padding: 40px;
                        border-radius: 12px;
                        box-shadow: 0 4px 12px rgba(0,0,0,0.1);
                    \x7d
                    .success \x7b
                        color: #28a745;
                        font-size: 28px;
                        text-align: center;
                        margin-bottom: 30px;
                    \x7d
                    .info \x7b
                        background: #e8f5e8;
                        padding: 20px;
                        border-radius: 8px;
                        margin: 20px 0;
                        border-left: 4px solid #28a745;
                    \x7d
                    .shop-name \x7b
                        font-weight: bold;
                        color: #6f42c1;
                    \x7d
                    .next-steps \x7b
                        background: #fff3cd;
                        border-left: 4px solid #ffc107;
                    \x7d
                    .code \x7b
                        font-family: \x27Monaco\x27, \x27Menlo\x27, monospace;
                        background: #f1f3f4;
                        padding: 2px 6px;
                        border-radius: 3px;
                        font-size: 14px;
                    \x7d
                </style>
            </head>
            <body>
                <div class=\"container\">
                    <div class=\"success\">✅ Installation Successful!</div>

                    <div class=\"info\">
                        <h3>✓ App Installed Successfully</h3>
                        <p><strong>Store:</strong> <span class=\"shop-name\">"

/-- Success page between the `${shop}` in the store info block and the
`${scope}` interpolation. -/
def successMid2 : String :=
"</span></p>
                        <p><strong>Permissions Granted:</strong> <span class=\"code\">"

/-- Success page after the `${scope}` interpolation: status line, next
steps, and the auto-close script. -/
def successTail : String :=
"</span></p>
                        <p><strong>Status:</strong> Ready for API access</p>
                    </div>

                    <div class=\"info next-steps\">
                        <h3>🚀 Next Steps for Power BI Integration:</h3>
                        <ol>
                            <li>Your app now has <strong>read_all_orders</strong> access</li>
                            <li>Check Shopify Admin → Settings → Apps to confirm installation</li>
                            <li>Use your Partner app credentials in Power Query</li>
                            <li>Access historical orders beyond 60 days via Admin API</li>
                        </ol>
                    </div>

                    <p style=\"text-align: center; margin-top: 30px; color: #666;\">
                        You can safely close this window.
                    </p>
                </div>

                <script>
                    // Auto-close after showing success for a few seconds
                    setTimeout(() => \x7b
                        if (window.opener) \x7b
                            window.close();
                        \x7d
                    \x7d, 5000);
                </script>
            </body>
            </html>
        "

/-- Rendered success page: the JS template literal with `${shop}` (twice)
and `${scope}` interpolated raw, exactly as the source does. -/
def successHTML (shop scope : String) : String :=
  successHead ++ shop ++ successMid1 ++ shop ++ successMid2 ++ scope ++ successTail

/-- Error page up to the `${error.message}` interpolation point. -/
def errorHead : String :=
"
            <!DOCTYPE html>
            <html>
            <head>
                <title>Installation Failed</title>
                <style>
                    body \x7b font-family: Arial, sans-serif; padding: 40px; text-align: center; \x7d
                    .error \x7b color: #dc3545; font-size: 24px; margin-bottom: 20px; \x7d
                </style>
            </head>
            <body>
                <div class=\"error\">❌ Installation Failed</div>
                <p>Error: "

/-- Error page after the `${error.message}` interpolation. -/
def errorTail : String :=
"</p>
                <p>Please try installing the app again from your Partner Dashboard.</p>
            </body>
            </html>
        "

/-- Rendered error page: the catch-block template literal with the caught
error message interpolated. -/
def errorHTML (msg : String) : String :=
  errorHead ++ msg ++ errorTail

/-- Success log line `App installed for ${shop} with scopes: ${scope}`. -/
def successLogLine (shop scope : String) : String :=
  "App installed for " ++ shop ++ " with scopes: " ++ scope

/-- Body of the `try` block.  An `Except.error (msg, fetched)` is a thrown
JS exception with message `msg`, remembering whether the outbound fetch
had already been issued when it was thrown; the catch block turns it into
the 500 error page. -/
def tryBody (hmacHex : String → String → String) (cfg : Config) (req : Req)
    (up : Except String Upstream) : Except (String × Bool) Outcome :=
  match req.query.lookup "hmac" with
  | none => Except.error (bufferUndefinedMsg, false)
  | some h =>
    if (hexDecode h.data).length ≠ (hexDecode (calculatedHmacOf hmacHex cfg req).data).length then
      Except.error (timingSafeLenMsg, false)
    else if hexDecode h.data ≠ hexDecode (calculatedHmacOf hmacHex cfg req).data then
      Except.ok ⟨⟨401, "application/json", jsonErrorBody "Invalid HMAC"⟩, false, none⟩
    else
      match up with
      | Except.error netMsg => Except.error (netMsg, true)
      | Except.ok t =>
        if !t.ok then
          Except.error ("Token exchange failed: " ++ t.statusText, true)
        else
          Except.ok ⟨⟨200, "text/html", successHTML (jsStr (req.query.lookup "shop")) t.scope⟩,
            true, some (successLogLine (jsStr (req.query.lookup "shop")) t.scope)⟩

/-- The handler: method gate, then the `try` block with its catch
rendering the 500 error page. -/
def handler (hmacHex : String → String → String) (cfg : Config) (req : Req)
    (up : Except String Upstream) : Outcome :=
  if req.method ≠ "GET" then
    ⟨⟨405, "application/json", jsonErrorBody "Method not allowed"⟩, false, none⟩
  else
    match tryBody hmacHex cfg req up with
    | Except.ok o => o
    | Except.error (msg, fetched) => ⟨⟨500, "text/html", errorHTML msg⟩, fetched, none⟩

/-- Substring occurrence on character lists: does the first list occur as
a leading block of the second? -/
def charsLeads : List Char → List Char → Bool
  | [], _ => true
  | _ :: _, [] => false
  | p :: ps, c :: cs => p == c && charsLeads ps cs

/-- Substring occurrence on character lists: does `pat` occur contiguously
anywhere in the list? -/
def charsHasSub (pat : List Char) : List Char → Bool
  | [] => charsLeads pat []
  | c :: cs => charsLeads pat (c :: cs) || charsHasSub pat cs

/-- Substring occurrence on strings. -/
def strHasSub (s pat : String) : Bool :=
  charsHasSub pat.data s.data

/-- Predicate for "the body is a rendered HTML document": it contains the
HTML doctype declaration. -/
def isHTMLDoc (s : String) : Bool :=
  strHasSub s "<!DOCTYPE html>"

/-- Verdict of the signature-verification step: the only information the
client secret contributes to the rest of the computation. -/
inductive Verdict where
  | missingHmac
  | lengthMismatch
  | invalid
  | valid
deriving DecidableEq, Repr

/-- Verdict the verification step reaches on a request: absent `hmac`
(`Buffer.from` raises), byte-length mismatch (`timingSafeEqual` raises),
byte inequality (401), or byte equality (proceed). -/
def verdict (hmacHex : String → String → String) (cfg : Config) (req : Req) : Verdict :=
  match req.query.lookup "hmac" with
  | none => Verdict.missingHmac
  | some h =>
    if (hexDecode h.data).length ≠ (hexDecode (calculatedHmacOf hmacHex cfg req).data).length then
      Verdict.lengthMismatch
    else if hexDecode h.data ≠ hexDecode (calculatedHmacOf hmacHex cfg req).data then
      Verdict.invalid
    else Verdict.valid

/-- Outcome as a function of the verification verdict alone: this function
takes neither the configuration nor the HMAC function, so no response text
can depend on the client secret except through the four-way verdict. -/
def respOfVerdict (v : Verdict) (req : Req) (up : Except String Upstream) : Outcome :=
  if req.method ≠ "GET" then
    ⟨⟨405, "application/json", jsonErrorBody "Method not allowed"⟩, false, none⟩
  else
    match v with
    | Verdict.missingHmac => ⟨⟨500, "text/html", errorHTML bufferUndefinedMsg⟩, false, none⟩
    | Verdict.lengthMismatch => ⟨⟨500, "text/html", errorHTML timingSafeLenMsg⟩, false, none⟩
    | Verdict.invalid => ⟨⟨401, "application/json", jsonErrorBody "Invalid HMAC"⟩, false, none⟩
    | Verdict.valid =>
      match up with
      | Except.error netMsg => ⟨⟨500, "text/html", errorHTML netMsg⟩, true, none⟩
      | Except.ok t =>
        if !t.ok then
          ⟨⟨500, "text/html", errorHTML ("Token exchange failed: " ++ t.statusText)⟩, true, none⟩
        else
          ⟨⟨200, "text/html", successHTML (jsStr (req.query.lookup "shop")) t.scope⟩, true,
            some (successLogLine (jsStr (req.query.lookup "shop")) t.scope)⟩

/-- Handler with the console stream made explicit: the only mutable state
the source touches.  `console.log` on success and `console.error` in the
catch block append to the stream; the response is returned alongside. -/
def handlerLog (hmacHex : String → String → String) (cfg : Config) (req : Req)
    (up : Except String Upstream) (log : List String) : Outcome × List String :=
  if req.method ≠ "GET" then
    (⟨⟨405, "application/json", jsonErrorBody "Method not allowed"⟩, false, none⟩, log)
  else
    match tryBody hmacHex cfg req up with
    | Except.ok o => (o, log ++ o.successLog.toList)
    | Except.error (msg, fetched) =>
      (⟨⟨500, "text/html", errorHTML msg⟩, fetched, none⟩,
        log ++ ["OAuth callback error: " ++ msg])

/-- Stand-in HMAC-SHA256 hex function for concrete test points: a constant
64-character lowercase hex digest (the real digest always has this shape). -/
def hmacDummy : String → String → String :=
  fun _ _ => String.mk (List.replicate 64 'a')

/-- Concrete app credentials for test points. -/
def cfg0 : Config :=
  ⟨"client-id-0", "shpss-secret-0"⟩

/-- Concrete upstream response for test points: a successful exchange. -/
def upOK : Except String Upstream :=
  Except.ok ⟨true, "OK", "tok", "read_orders"⟩

/-- Concrete GET request whose `hmac` is 64 hex characters that decode to
bytes differing from `hmacDummy`'s digest bytes. -/
def reqMismatch : Req :=
  ⟨"GET", [("code", "xyz"), ("hmac", String.mk (List.replicate 64 'b')), ("shop", "a.myshopify.com")]⟩

/-- Concrete GET request whose `hmac` is the two-character hex string "ab",
decoding to a single byte. -/
def reqShortHmac : Req :=
  ⟨"GET", [("code", "xyz"), ("hmac", "ab"), ("shop", "a.myshopify.com")]⟩

/-- Concrete GET request whose `hmac` equals `hmacDummy`'s digest exactly. -/
def reqValid : Req :=
  ⟨"GET", [("code", "xyz"), ("hmac", String.mk (List.replicate 64 'a')), ("shop", "a.myshopify.com")]⟩

/-- Concrete GET request whose `hmac` is the uppercase rendering of
`hmacDummy`'s lowercase digest: textually different, byte-wise equal. -/
def reqUpperHmac : Req :=
  ⟨"GET", [("code", "xyz"), ("hmac", String.mk (List.replicate 64 'A')), ("shop", "a.myshopify.com")]⟩

/-- Concrete GET request with no `hmac` parameter at all. -/
def reqNoHmac : Req :=
  ⟨"GET", [("code", "xyz"), ("shop", "a.myshopify.com")]⟩

/-- Concrete non-GET request. -/
def reqPost : Req :=
  ⟨"POST", [("code", "xyz"), ("shop", "a.myshopify.com")]⟩

/-! Helper lemmas: the computable comparator agrees with the `String`
linear order, so the JS sort can be characterized by `List.Sorted`. -/

theorem charsLe_iff (xs ys : List Char) :
    charsLe xs ys = true ↔ ¬ List.Lex (· < ·) ys xs := by
  induction xs generalizing ys with
  | nil =>
    exact iff_of_true rfl (List.Lex.not_nil_right _ _)
  | cons a as ih =>
    cases ys with
    | nil =>
      exact iff_of_false (by simp [charsLe]) (fun h => h List.Lex.nil)
    | cons b bs =>
      simp only [charsLe]
      split
      · rename_i hab
        refine iff_of_true rfl (fun h => ?_)
        cases h with
        | cons h => exact absurd hab (lt_irrefl _)
        | rel h => exact absurd h (lt_asymm hab)
      · split
        · rename_i hab hba
          exact iff_of_false (by simp) (fun h => h (List.Lex.rel hba))
        · rename_i hab hba
          have heq : a = b := le_antisymm (le_of_not_lt hba) (le_of_not_lt hab)
          subst heq
          rw [ih bs]
          constructor
          · intro h hl
            cases hl with
            | cons h' => exact h h'
            | rel h' => exact absurd h' (lt_irrefl _)
          · exact fun h hl => h (List.Lex.cons hl)

theorem strLe_iff (a b : String) : strLe a b = true ↔ a ≤ b := by
  rw [strLe, charsLe_iff]
  constructor
  · intro h hlt
    exact h (String.lt_iff_toList_lt.mp hlt)
  · intro h hlex
    exact h (String.lt_iff_toList_lt.mpr hlex)

theorem lexInsert_perm (x : String) (l : List String) :
    List.Perm (lexInsert x l) (x :: l) := by
  induction l with
  | nil => exact List.Perm.refl _
  | cons y ys ih =>
    rw [lexInsert]
    split
    · exact List.Perm.refl _
    · exact (ih.cons y).trans (List.Perm.swap x y ys)

theorem sorted_lexInsert (x : String) (l : List String)
    (h : List.Sorted (· ≤ ·) l) : List.Sorted (· ≤ ·) (lexInsert x l) := by
  induction l with
  | nil => simp [lexInsert]
  | cons y ys ih =>
    rw [List.sorted_cons] at h
    obtain ⟨hy, hys⟩ := h
    rw [lexInsert]
    split
    · rename_i hxy
      have hxy' : x ≤ y := (strLe_iff x y).mp hxy
      rw [List.sorted_cons]
      refine ⟨fun b hb => ?_, List.sorted_cons.mpr ⟨hy, hys⟩⟩
      rcases List.mem_cons.mp hb with hb | hb
      · exact hb ▸ hxy'
      · exact le_trans hxy' (hy b hb)
    · rename_i hxy
      have hyx : y ≤ x := le_of_not_le (fun hle => hxy ((strLe_iff x y).mpr hle))
      rw [List.sorted_cons]
      refine ⟨fun b hb => ?_, ih hys⟩
      have hb' : b ∈ x :: ys := (lexInsert_perm x ys).subset hb
      rcases List.mem_cons.mp hb' with hb' | hb'
      · exact hb' ▸ hyx
      · exact hy b hb'

theorem lexSort_perm (l : List String) : List.Perm (lexSort l) l := by
  induction l with
  | nil => exact List.Perm.refl _
  | cons x xs ih =>
    exact (lexInsert_perm x (lexSort xs)).trans (ih.cons x)

theorem lexSort_sorted (l : List String) : List.Sorted (· ≤ ·) (lexSort l) := by
  induction l with
  | nil => simp [lexSort]
  | cons x xs ih => exact sorted_lexInsert x (lexSort xs) ih

/-! Helper lemmas about substring occurrence. -/

theorem charsLeads_append (p rest : List Char) : charsLeads p (p ++ rest) = true := by
  induction p with
  | nil => rfl
  | cons c cs ih => simp [charsLeads, ih]

theorem charsLeads_mono (p x y : List Char) (h : charsLeads p x = true) :
    charsLeads p (x ++ y) = true := by
  induction p generalizing x with
  | nil => rfl
  | cons c cs ih =>
    cases x with
    | nil => exact absurd h (by simp [charsLeads])
    | cons d ds =>
      rw [charsLeads, Bool.and_eq_true] at h
      simpa [charsLeads, h.1] using ih ds h.2

theorem charsHasSub_self_append (p y : List Char) : charsHasSub p (p ++ y) = true := by
  cases p with
  | nil =>
    cases y with
    | nil => rfl
    | cons c cs => simp [charsHasSub, charsLeads]
  | cons c cs =>
    simp [charsHasSub, charsLeads, charsLeads_append]

theorem charsHasSub_append_of (p x l : List Char) (h : charsHasSub p l = true) :
    charsHasSub p (x ++ l) = true := by
  induction x with
  | nil => exact h
  | cons d ds ih => simp [charsHasSub, ih]

theorem charsHasSub_self (p : List Char) : charsHasSub p p = true := by
  have h := charsHasSub_self_append p []
  rwa [List.append_nil] at h

theorem charsHasSub_ext_right (p x y : List Char) (h : charsHasSub p x = true) :
    charsHasSub p (x ++ y) = true := by
  induction x with
  | nil =>
    cases p with
    | nil => exact charsHasSub_self_append [] y
    | cons c cs => exact absurd h (by simp [charsHasSub, charsLeads])
  | cons d ds ih =>
    rw [charsHasSub, Bool.or_eq_true] at h
    rcases h with h | h
    · rw [List.cons_append, charsHasSub, Bool.or_eq_true]
      exact Or.inl (charsLeads_mono p (d :: ds) y h)
    · simp [charsHasSub, ih h]

/-! Helper lemmas: the rendered documents contain the HTML doctype, and
the handler factors through the verification verdict. -/

theorem isHTMLDoc_errorHTML (msg : String) : isHTMLDoc (errorHTML msg) = true := by
  rw [isHTMLDoc, errorHTML, strHasSub, String.data_append, String.data_append]
  apply charsHasSub_ext_right
  apply charsHasSub_ext_right
  decide

theorem isHTMLDoc_successHTML (shop scope : String) :
    isHTMLDoc (successHTML shop scope) = true := by
  rw [isHTMLDoc, successHTML, strHasSub]
  rw [String.data_append, String.data_append, String.data_append, String.data_append,
    String.data_append, String.data_append]
  apply charsHasSub_ext_right
  apply charsHasSub_ext_right
  apply charsHasSub_ext_right
  apply charsHasSub_ext_right
  apply charsHasSub_ext_right
  apply charsHasSub_ext_right
  decide

theorem handler_factors (hmacHex : String → String → String) (cfg : Config) (req : Req)
    (up : Except String Upstream) :
    handler hmacHex cfg req up = respOfVerdict (verdict hmacHex cfg req) req up := by
  rw [handler, respOfVerdict.eq_def, tryBody.eq_def, verdict.eq_def]
  by_cases hm : req.method ≠ "GET"
  · rw [if_pos hm, if_pos hm]
  · rw [if_neg hm, if_neg hm]
    cases hq : req.query.lookup "hmac" with
    | none => rfl
    | some hstr =>
      by_cases hlen :
          (hexDecode hstr.data).length ≠ (hexDecode (calculatedHmacOf hmacHex cfg req).data).length
      · simp only [if_pos hlen]
      · simp only [if_neg hlen]
        by_cases hbytes : hexDecode hstr.data ≠ hexDecode (calculatedHmacOf hmacHex cfg req).data
        · simp only [if_pos hbytes]
        · simp only [if_neg hbytes]
          cases up with
          | error netMsg => rfl
          | ok t =>
            cases hok : t.ok with
            | false => simp [hok]
            | true => simp [hok]

theorem handlerLog_fst (hmacHex : String → String → String) (cfg : Config) (req : Req)
    (up : Except String Upstream) (log : List String) :
    (handlerLog hmacHex cfg req up log).1 = handler hmacHex cfg req up := by
  rw [handlerLog, handler]
  by_cases hm : req.method ≠ "GET"
  · rw [if_pos hm, if_pos hm]
  · rw [if_neg hm, if_neg hm]
    cases tryBody hmacHex cfg req up with
    | ok o => rfl
    | error e => cases e with | mk msg f => rfl

theorem respOfVerdict_fetched (v : Verdict) (req : Req) (up : Except String Upstream)
    (h : v ≠ Verdict.valid) : (respOfVerdict v req up).fetched = false := by
  rw [respOfVerdict.eq_def]
  split
  · rfl
  · cases v with
    | valid => exact absurd rfl h
    | missingHmac => rfl
    | lengthMismatch => rfl
    | invalid => rfl

theorem verdict_ne_valid (hmacHex : String → String → String) (cfg : Config) (req : Req)
    (h : ∀ hm, req.query.lookup "hmac" = some hm →
      hexDecode hm.data ≠ hexDecode (calculatedHmacOf hmacHex cfg req).data) :
    verdict hmacHex cfg req ≠ Verdict.valid := by
  rw [verdict.eq_def]
  cases hq : req.query.lookup "hmac" with
  | none => exact fun hc => Verdict.noConfusion hc
  | some hstr =>
    have hne := h hstr hq
    by_cases hlen :
        (hexDecode hstr.data).length ≠ (hexDecode (calculatedHmacOf hmacHex cfg req).data).length
    · simp only [if_pos hlen]
      exact fun hc => Verdict.noConfusion hc
    · simp only [if_neg hlen, if_pos hne]
      exact fun hc => Verdict.noConfusion hc

theorem verdict_eq_invalid (hmacHex : String → String → String) (cfg : Config) (req : Req)
    (hm : String) (hq : req.query.lookup "hmac" = some hm)
    (hlen : (hexDecode hm.data).length = (hexDecode (calculatedHmacOf hmacHex cfg req).data).length)
    (hne : hexDecode hm.data ≠ hexDecode (calculatedHmacOf hmacHex cfg req).data) :
    verdict hmacHex cfg req = Verdict.invalid := by
  rw [verdict.eq_def]
  simp only [hq]
  rw [if_neg (fun hC => hC hlen), if_pos hne]

theorem verdict_eq_valid (hmacHex : String → String → String) (cfg : Config) (req : Req)
    (hm : String) (hq : req.query.lookup "hmac" = some hm)
    (heq : hexDecode hm.data = hexDecode (calculatedHmacOf hmacHex cfg req).data) :
    verdict hmacHex cfg req = Verdict.valid := by
  rw [verdict.eq_def]
  simp only [hq]
  rw [if_neg (fun hC => hC (by rw [heq])), if_neg (fun hC => hC heq)]

/-! Claim theorems. -/

/-- C1 counterexample: the handler's comparison is on hex-decoded bytes,
not on the strings.  Supplying the digest in uppercase hex gives a
supplied `hmac` that does not equal the computed digest as a string, yet
the outbound token-exchange call is made. -/
theorem c1_counterexample :
    calculatedHmacOf hmacDummy cfg0 reqUpperHmac ≠ String.mk (List.replicate 64 'A')
    ∧ reqUpperHmac.query.lookup "hmac" = some (String.mk (List.replicate 64 'A'))
    ∧ reqUpperHmac.method = "GET"
    ∧ (handler hmacDummy cfg0 reqUpperHmac upOK).fetched = true :=
  ⟨by decide, by decide, rfl, by decide⟩

/-- C1 (amended): the handler performs the outbound token-exchange POST
only if the byte-level constant-time comparison succeeds: whenever the
supplied `hmac` is absent or its hex decoding differs from the decoding
of the computed digest, no outbound token-exchange call is made. -/
theorem c1_amended (hmacHex : String → String → String) (cfg : Config) (req : Req)
    (up : Except String Upstream)
    (h : ∀ hm, req.query.lookup "hmac" = some hm →
      hexDecode hm.data ≠ hexDecode (calculatedHmacOf hmacHex cfg req).data) :
    (handler hmacHex cfg req up).fetched = false := by
  rw [handler_factors]
  exact respOfVerdict_fetched _ _ _ (verdict_ne_valid hmacHex cfg req h)

/-- C1 witness: on a concrete GET request whose hmac decodes to different
bytes, the outbound call is not made. -/
theorem c1_witness : (handler hmacDummy cfg0 reqMismatch upOK).fetched = false :=
  c1_amended hmacDummy cfg0 reqMismatch upOK (fun hm hq => by
    have hb : String.mk (List.replicate 64 'b') = hm := Option.some.inj hq
    subst hb
    decide)

/-- C2 counterexample: a GET request whose supplied `hmac` ("ab") does not
match the computed digest and has a different length yields status 500,
not 401: `timingSafeEqual` raises on the length mismatch and the catch
block responds 500. -/
theorem c2_counterexample :
    reqShortHmac.method = "GET"
    ∧ reqShortHmac.query.lookup "hmac" = some "ab"
    ∧ "ab" ≠ calculatedHmacOf hmacDummy cfg0 reqShortHmac
    ∧ (handler hmacDummy cfg0 reqShortHmac upOK).resp.status = 500
    ∧ (handler hmacDummy cfg0 reqShortHmac upOK).resp.status ≠ 401 :=
  ⟨rfl, by decide, by decide, by decide, by decide⟩

/-- C2 (amended): a GET request whose supplied `hmac` decodes to bytes of
the same length as the computed digest's bytes but unequal to them gets
response status exactly 401; when the decoded lengths differ the
comparison raises instead and the response is the generic 500. -/
theorem c2_amended (hmacHex : String → String → String) (cfg : Config) (req : Req)
    (up : Except String Upstream) (hm : String)
    (hmethod : req.method = "GET")
    (hq : req.query.lookup "hmac" = some hm)
    (hlen : (hexDecode hm.data).length = (hexDecode (calculatedHmacOf hmacHex cfg req).data).length)
    (hne : hexDecode hm.data ≠ hexDecode (calculatedHmacOf hmacHex cfg req).data) :
    (handler hmacHex cfg req up).resp.status = 401 := by
  rw [handler_factors, verdict_eq_invalid hmacHex cfg req hm hq hlen hne, respOfVerdict.eq_def]
  rw [if_neg (fun hc => hc hmethod)]

/-- C2 witness: a concrete same-length byte mismatch yields 401. -/
theorem c2_witness : (handler hmacDummy cfg0 reqMismatch upOK).resp.status = 401 :=
  c2_amended hmacDummy cfg0 reqMismatch upOK (String.mk (List.replicate 64 'b'))
    rfl (by decide) (by decide) (by decide)

/-- C3: the canonical message takes every query parameter except `hmac`
and `signature`, sorts the names lexicographically, renders `name=value`
and joins with `&`; the keys used are a permutation of the non-excluded
keys, sorted under the string order, and the worked example from the spec
evaluates as claimed. -/
theorem c3_canonical_message (query : List (String × String)) :
    List.Perm (sortedKeys query)
        ((query.map Prod.fst).filter (fun key => key != "signature" && key != "hmac"))
    ∧ List.Sorted (· ≤ ·) (sortedKeys query)
    ∧ messageOf query = String.intercalate "&"
        ((sortedKeys query).map (fun key => key ++ "=" ++ jsStr (query.lookup key)))
    ∧ messageOf [("shop", "a.myshopify.com"), ("code", "xyz"), ("state", "abc")]
        = "code=xyz&shop=a.myshopify.com&state=abc" :=
  ⟨lexSort_perm _, lexSort_sorted _, rfl, by decide⟩

/-- C4 counterexample: a non-GET request gets its mapped status 405, but
the body is the JSON error object, not a rendered HTML document (the
source uses `res.json`, and `Content-Type` is JSON). -/
theorem c4_counterexample :
    reqPost.method ≠ "GET"
    ∧ (handler hmacDummy cfg0 reqPost upOK).resp.status = 405
    ∧ (handler hmacDummy cfg0 reqPost upOK).resp.contentType = "application/json"
    ∧ isHTMLDoc (handler hmacDummy cfg0 reqPost upOK).resp.body = false :=
  ⟨by decide, by decide, by decide, by decide⟩

/-- C4 (amended): every outcome carries its mapped status, but only the
500 outcomes (TokenExchangeFailed and UnexpectedFailure) render the HTML
error document; MethodNotAllowed (405) and InvalidSignature (401) respond
with JSON error bodies, and success is the 200 HTML page. -/
theorem c4_amended (hmacHex : String → String → String) (cfg : Config) (req : Req)
    (up : Except String Upstream) :
    ((handler hmacHex cfg req up).resp.status = 405
      ∧ (handler hmacHex cfg req up).resp.body = jsonErrorBody "Method not allowed")
    ∨ ((handler hmacHex cfg req up).resp.status = 401
      ∧ (handler hmacHex cfg req up).resp.body = jsonErrorBody "Invalid HMAC")
    ∨ ((handler hmacHex cfg req up).resp.status = 500
      ∧ (∃ msg, (handler hmacHex cfg req up).resp.body = errorHTML msg)
      ∧ isHTMLDoc (handler hmacHex cfg req up).resp.body = true)
    ∨ ((handler hmacHex cfg req up).resp.status = 200
      ∧ (∃ scope, (handler hmacHex cfg req up).resp.body
          = successHTML (jsStr (req.query.lookup "shop")) scope)
      ∧ isHTMLDoc (handler hmacHex cfg req up).resp.body = true) := by
  rw [handler_factors, respOfVerdict.eq_def]
  by_cases hm : req.method ≠ "GET"
  · rw [if_pos hm]
    exact Or.inl ⟨rfl, rfl⟩
  · rw [if_neg hm]
    cases verdict hmacHex cfg req with
    | missingHmac => exact Or.inr (Or.inr (Or.inl ⟨rfl, ⟨_, rfl⟩, isHTMLDoc_errorHTML _⟩))
    | lengthMismatch => exact Or.inr (Or.inr (Or.inl ⟨rfl, ⟨_, rfl⟩, isHTMLDoc_errorHTML _⟩))
    | invalid => exact Or.inr (Or.inl ⟨rfl, rfl⟩)
    | valid =>
      cases up with
      | error netMsg => exact Or.inr (Or.inr (Or.inl ⟨rfl, ⟨_, rfl⟩, isHTMLDoc_errorHTML _⟩))
      | ok t =>
        obtain ⟨ok, st, tok, sc⟩ := t
        cases ok with
        | false => exact Or.inr (Or.inr (Or.inl ⟨rfl, ⟨_, rfl⟩, isHTMLDoc_errorHTML _⟩))
        | true => exact Or.inr (Or.inr (Or.inr ⟨rfl, ⟨_, rfl⟩, isHTMLDoc_successHTML _ _⟩))

set_option maxRecDepth 40000 in
/-- C5 counterexample: a shop value containing markup-breaking characters
is interpolated into the success document verbatim, and no escaped form
appears: the values are not escaped for safe embedding. -/
theorem c5_counterexample :
    strHasSub (successHTML "<script>alert(1)</script>" "read_orders")
        "<script>alert(1)</script>" = true
    ∧ strHasSub (successHTML "<script>alert(1)</script>" "read_orders")
        "&lt;script&gt;" = false :=
  ⟨by decide, by decide⟩

/-- C5 (amended): the success document embeds the shop identifier and the
granted scope interpolated raw: whatever strings they are, they occur
verbatim as substrings of the rendered document, with no escaping
applied. -/
theorem c5_amended (shop scope : String) :
    strHasSub (successHTML shop scope) shop = true
    ∧ strHasSub (successHTML shop scope) scope = true := by
  constructor
  · rw [successHTML, strHasSub, String.data_append, String.data_append, String.data_append,
      String.data_append, String.data_append, String.data_append]
    apply charsHasSub_ext_right
    apply charsHasSub_ext_right
    apply charsHasSub_ext_right
    apply charsHasSub_ext_right
    apply charsHasSub_ext_right
    exact charsHasSub_append_of _ _ _ (charsHasSub_self _)
  · rw [successHTML, strHasSub, String.data_append, String.data_append, String.data_append,
      String.data_append, String.data_append, String.data_append]
    apply charsHasSub_ext_right
    exact charsHasSub_append_of _ _ _ (charsHasSub_self _)

/-- C6: a non-GET request gets status exactly 405 with the JSON error
body, no outbound call, no log line, and no further processing: the
outcome does not depend on the HMAC function, the credentials, or the
upstream, so no HMAC computation and no network call can influence it. -/
theorem c6_method_gate (hmacHex hmacHex' : String → String → String) (cfg cfg' : Config)
    (req : Req) (up up' : Except String Upstream) (h : req.method ≠ "GET") :
    handler hmacHex cfg req up
      = ⟨⟨405, "application/json", jsonErrorBody "Method not allowed"⟩, false, none⟩
    ∧ handler hmacHex cfg req up = handler hmacHex' cfg' req up' := by
  refine ⟨?_, ?_⟩
  · rw [handler, if_pos h]
  · rw [handler, handler, if_pos h, if_pos h]

/-- C6 witness: a concrete POST request is rejected with 405 and the
outcome is independent of configuration and upstream. -/
theorem c6_witness :
    handler hmacDummy cfg0 reqPost upOK
      = ⟨⟨405, "application/json", jsonErrorBody "Method not allowed"⟩, false, none⟩
    ∧ handler hmacDummy cfg0 reqPost upOK
      = handler (fun _ _ => "") ⟨"other-id", "other-secret"⟩ reqPost (Except.error "network down") :=
  c6_method_gate hmacDummy (fun _ _ => "") cfg0 ⟨"other-id", "other-secret"⟩ reqPost upOK
    (Except.error "network down") (by decide)

/-- C7: when HMAC verification succeeds and the upstream token response
has a non-success status, the handler responds 500 with the rendered
error document whose message contains the upstream status text, and no
success page and no success log line are produced. -/
theorem c7_token_exchange_failed (hmacHex : String → String → String) (cfg : Config)
    (req : Req) (t : Upstream) (hm : String)
    (hmethod : req.method = "GET")
    (hq : req.query.lookup "hmac" = some hm)
    (heq : hexDecode hm.data = hexDecode (calculatedHmacOf hmacHex cfg req).data)
    (hok : t.ok = false) :
    (handler hmacHex cfg req (Except.ok t)).resp.status = 500
    ∧ (handler hmacHex cfg req (Except.ok t)).resp.body
        = errorHTML ("Token exchange failed: " ++ t.statusText)
    ∧ strHasSub (handler hmacHex cfg req (Except.ok t)).resp.body t.statusText = true
    ∧ (handler hmacHex cfg req (Except.ok t)).successLog = none
    ∧ (handler hmacHex cfg req (Except.ok t)).resp.contentType = "text/html" := by
  have hb : handler hmacHex cfg req (Except.ok t)
      = ⟨⟨500, "text/html", errorHTML ("Token exchange failed: " ++ t.statusText)⟩, true, none⟩ := by
    rw [handler_factors, verdict_eq_valid hmacHex cfg req hm hq heq, respOfVerdict.eq_def]
    rw [if_neg (fun hc => hc hmethod)]
    simp only [hok]
    rfl
  rw [hb]
  refine ⟨rfl, rfl, ?_, rfl, rfl⟩
  rw [errorHTML, strHasSub, String.data_append, String.data_append, String.data_append]
  apply charsHasSub_ext_right
  exact charsHasSub_append_of _ _ _
    (charsHasSub_append_of _ _ _ (charsHasSub_self _))

/-- C7 witness: a concrete valid-signature request against an upstream
returning a non-success status produces the 500 error page containing the
status text. -/
theorem c7_witness :
    (handler hmacDummy cfg0 reqValid (Except.ok ⟨false, "Bad Gateway", "", ""⟩)).resp.status = 500
    ∧ (handler hmacDummy cfg0 reqValid (Except.ok ⟨false, "Bad Gateway", "", ""⟩)).resp.body
        = errorHTML ("Token exchange failed: " ++ Upstream.statusText ⟨false, "Bad Gateway", "", ""⟩)
    ∧ strHasSub (handler hmacDummy cfg0 reqValid
        (Except.ok ⟨false, "Bad Gateway", "", ""⟩)).resp.body
        (Upstream.statusText ⟨false, "Bad Gateway", "", ""⟩) = true
    ∧ (handler hmacDummy cfg0 reqValid (Except.ok ⟨false, "Bad Gateway", "", ""⟩)).successLog = none
    ∧ (handler hmacDummy cfg0 reqValid
        (Except.ok ⟨false, "Bad Gateway", "", ""⟩)).resp.contentType = "text/html" :=
  c7_token_exchange_failed hmacDummy cfg0 reqValid ⟨false, "Bad Gateway", "", ""⟩
    (String.mk (List.replicate 64 'a')) rfl (by decide) (by decide) rfl

/-- C8: the client secret never flows into the rendered output.  The
handler factors through `respOfVerdict`, a function that receives neither
the configuration (so neither `CLIENT_SECRET` nor `CLIENT_ID`) nor the
HMAC function: every byte of every response body is computed without
access to the secret, which influences the outcome only through the
four-way verification verdict.  In particular no response body, success
page or error message can embed the secret value. -/
theorem c8_secret_not_in_output (hmacHex : String → String → String) (cfg : Config)
    (req : Req) (up : Except String Upstream) :
    handler hmacHex cfg req up = respOfVerdict (verdict hmacHex cfg req) req up :=
  handler_factors hmacHex cfg req up

/-- C9: the handler is deterministic and stateless across invocations:
with the console stream made explicit as the only state, the response is
independent of the incoming stream contents, and replaying the identical
request (same method, query, configuration and upstream response) after a
first run produces the identical outcome (status, body, fetch behavior
and log line). -/
theorem c9_deterministic_stateless (hmacHex : String → String → String) (cfg : Config)
    (req : Req) (up : Except String Upstream) (log1 log2 : List String) :
    (handlerLog hmacHex cfg req up log1).1 = (handlerLog hmacHex cfg req up log2).1
    ∧ (handlerLog hmacHex cfg req up ((handlerLog hmacHex cfg req up log1).2)).1
      = (handlerLog hmacHex cfg req up log1).1 := by
  rw [handlerLog_fst, handlerLog_fst, handlerLog_fst]
  exact ⟨rfl, rfl⟩

/-- C10: on a GET request whose `hmac` parameter is absent, or whose hex
decoding has a byte length other than the digest's 32 bytes, the raised
`TypeError` / `RangeError` lands in the catch block: the response is the
generic 500 error document, never 401, and no outbound call is made. -/
theorem c10_bad_hmac_shape_500 (hmacHex : String → String → String) (cfg : Config)
    (req : Req) (up : Except String Upstream)
    (hmethod : req.method = "GET")
    (hcalc : (hexDecode (calculatedHmacOf hmacHex cfg req).data).length = 32)
    (h : ∀ hm, req.query.lookup "hmac" = some hm → (hexDecode hm.data).length ≠ 32) :
    (handler hmacHex cfg req up).resp.status = 500
    ∧ (handler hmacHex cfg req up).resp.status ≠ 401
    ∧ (∃ msg, (handler hmacHex cfg req up).resp.body = errorHTML msg)
    ∧ (handler hmacHex cfg req up).fetched = false := by
  have hv : verdict hmacHex cfg req = Verdict.missingHmac
      ∨ verdict hmacHex cfg req = Verdict.lengthMismatch := by
    rw [verdict.eq_def]
    cases hq : req.query.lookup "hmac" with
    | none => exact Or.inl rfl
    | some hstr =>
      refine Or.inr ?_
      have hlen : (hexDecode hstr.data).length
          ≠ (hexDecode (calculatedHmacOf hmacHex cfg req).data).length := by
        rw [hcalc]
        exact h hstr hq
      simp only [if_pos hlen]
  rw [handler_factors, respOfVerdict.eq_def, if_neg (fun hc => hc hmethod)]
  rcases hv with hv | hv <;> rw [hv] <;>
    exact ⟨rfl, (by decide : (500 : Nat) ≠ 401), ⟨_, rfl⟩, rfl⟩

/-- C10 witness: a concrete GET request with no `hmac` parameter gets the
500 error document with no outbound call. -/
theorem c10_witness :
    (handler hmacDummy cfg0 reqNoHmac upOK).resp.status = 500
    ∧ (handler hmacDummy cfg0 reqNoHmac upOK).resp.status ≠ 401
    ∧ (∃ msg, (handler hmacDummy cfg0 reqNoHmac upOK).resp.body = errorHTML msg)
    ∧ (handler hmacDummy cfg0 reqNoHmac upOK).fetched = false :=
  c10_bad_hmac_shape_500 hmacDummy cfg0 reqNoHmac upOK rfl (by decide)
    (fun hm hq => Option.noConfusion hq)
